import Mathlib

/-!
Verification development for the rclaw task scheduler and execution backend
controller (src/task_scheduler.rs, src/container.rs).

Modelling conventions:
* Timestamps (chrono DateTime of Utc) are integers (milliseconds since an
  arbitrary epoch); chrono Duration values are integer millisecond counts,
  bounded by the chrono invariant that the total millisecond count fits in
  a signed 64-bit integer.
* RFC 3339 parsing and printing of timestamps (chrono parse_from_rfc3339 and
  to_rfc3339) are external library functions and are passed in as oracle
  parameters parseRfc and toRfc.
* A cron crate Schedule value is modelled by the function it is used
  through, namely schedule.after(now).next(), of type Int -> Option Int;
  Schedule.from_str is the oracle parameter cronFromStr.
* Rust string operations are reimplemented structurally on List Char so that
  every definition evaluates by kernel reduction.
-/

namespace Rclaw

/-- Tokens produced by Rust str::split_whitespace on a character list:
maximal runs of non-whitespace characters, with no empty tokens. -/
def splitWSAux : List Char → List Char → List (List Char)
  | [], acc => if acc.isEmpty then [] else [acc.reverse]
  | c :: cs, acc =>
    if c.isWhitespace then
      if acc.isEmpty then splitWSAux cs [] else acc.reverse :: splitWSAux cs []
    else
      splitWSAux cs (c :: acc)

/-- Rust str::split_whitespace. -/
def splitWS (cs : List Char) : List (List Char) := splitWSAux cs []

/-- Rust str::parse::<i64>: optional sign, then one or more ASCII digits,
rejecting values outside the i64 range. -/
def digitsToNat (cs : List Char) : Nat :=
  List.foldl (fun a c => 10 * a + (c.toNat - 48)) 0 cs

/-- Largest i64 value. -/
def i64Max : Int := 9223372036854775807

/-- Smallest i64 value. -/
def i64Min : Int := -9223372036854775808

/-- Rust i64 FromStr parsing on a character list. -/
def parseI64 (cs : List Char) : Option Int :=
  let signDigits : Int × List Char :=
    match cs with
    | '-' :: rest => (-1, rest)
    | '+' :: rest => (1, rest)
    | _ => (1, cs)
  if signDigits.2.isEmpty then none
  else if !(signDigits.2.all Char.isDigit) then none
  else
    let v : Int := signDigits.1 * (digitsToNat signDigits.2 : Int)
    if i64Min ≤ v && v ≤ i64Max then some v else none

/-- A chrono Duration (TimeDelta) is valid when its total millisecond count
has magnitude at most i64::MAX (chrono MAX is i64::MAX milliseconds and
MIN is its negation). -/
def durationValid (ms : Int) : Bool := -i64Max ≤ ms && ms ≤ i64Max

/-- chrono Duration::try_seconds: bounds check, result in milliseconds. -/
def trySeconds (a : Int) : Option Int :=
  if durationValid (a * 1000) then some (a * 1000) else none

/-- chrono Duration::try_minutes: i64 checked multiplication by 60, then
try_seconds. -/
def tryMinutes (a : Int) : Option Int :=
  if i64Min ≤ a * 60 && a * 60 ≤ i64Max then trySeconds (a * 60) else none

/-- chrono Duration::try_hours: i64 checked multiplication by 3600, then
try_seconds. -/
def tryHours (a : Int) : Option Int :=
  if i64Min ≤ a * 3600 && a * 3600 ≤ i64Max then trySeconds (a * 3600) else none

/-- chrono Duration::try_days: i64 checked multiplication by 86400, then
try_seconds. -/
def tryDays (a : Int) : Option Int :=
  if i64Min ≤ a * 86400 && a * 86400 ≤ i64Max then trySeconds (a * 86400) else none

/-- Parsed schedule of a task (task_scheduler.rs, enum TaskSchedule): either
a cron schedule, modelled by its next-occurrence-after function, or a fixed
repetition interval in milliseconds. -/
inductive TaskSchedule where
  | cron (after : Int → Option Int)
  | every (durationMs : Int)

/-- Schedule-string parsing performed at the top of check_and_run_tasks
(task_scheduler.rs lines 42-89).  Strings starting with "every " are split
on whitespace; with exactly two tokens, the second token is cut into a
numeric prefix-free amount (trailing non-digits stripped) and a unit
(leading digits stripped); the unit selects a chrono try_* constructor whose
out-of-range failure falls back to Duration::zero.  Any other string is
handed to cron Schedule::from_str (the oracle cronFromStr).  The result is
none exactly when the code logs an invalid-schedule error and skips the
task.  This function is the interval branch (lines 43-79), returning the
duration in milliseconds. -/
def parseEveryDuration (s : String) : Option Int :=
  match splitWS s.data with
  | [_, token] =>
    let amountChars := (token.reverse.dropWhile (fun c => !c.isDigit)).reverse
    let unitChars := token.dropWhile (fun c => c.isDigit)
    match parseI64 amountChars with
    | some amount =>
      if unitChars = "s".data then some ((trySeconds amount).getD 0)
      else if unitChars = "m".data then some ((tryMinutes amount).getD 0)
      else if unitChars = "h".data then some ((tryHours amount).getD 0)
      else if unitChars = "d".data then some ((tryDays amount).getD 0)
      else none
    | none => none
  | _ => none

/-- Dispatch between the interval branch and the cron branch of the
schedule parsing (task_scheduler.rs lines 42 and 81-88). -/
def parseTaskSchedule (cronFromStr : String → Option (Int → Option Int))
    (s : String) : Option TaskSchedule :=
  if "every ".data.isPrefixOf s.data then
    (parseEveryDuration s).map .every
  else
    (cronFromStr s).map .cron

/-- The catch-up loop of check_and_run_tasks (task_scheduler.rs lines
102-105): starting from calculated_next = last_run + duration, add the
duration while the value is at most now.  The loop in the source has no
bound; fuel counts the remaining permitted iterations, and none means the
fuel was exhausted, that is, the source loop is still running after that
many iterations. -/
def catchUp (d now : Int) : Nat → Int → Option Int
  | 0, c => if now < c then some c else none
  | fuel + 1, c => if now < c then some c else catchUp d now fuel (c + d)

/-- The next_occurrence computation of check_and_run_tasks
(task_scheduler.rs lines 91-112).  The outer none means the Every catch-up
loop did not finish within the given fuel; some none is the cron branch
reporting no upcoming occurrence; some (some v) is a computed due time. -/
def computeNextOccurrence (parseRfc : String → Option Int) (now : Int)
    (fuel : Nat) (sched : TaskSchedule) (lastRun : Option String) :
    Option (Option Int) :=
  match sched with
  | .cron after => some (after now)
  | .every d =>
    match lastRun.bind parseRfc with
    | some last => (catchUp d now fuel (last + d)).map some
    | none => some (some (now + d))

/-- A scheduled task row (db.rs, struct Task). -/
structure Task where
  id : String
  group_folder : String
  prompt : String
  schedule : String
  last_run : Option String
  next_run : Option String
  status : String
deriving DecidableEq, Repr

/-- The JSON request written to the backend (container.rs, struct
ContainerInput). -/
structure ContainerInput where
  prompt : String
  session_id : String
  group_folder : String
  chat_jid : String
  is_main : Bool
  is_scheduled_task : Option Bool
deriving DecidableEq, Repr

/-- The backend response record (container.rs, struct ContainerOutput). -/
structure ContainerOutput where
  status : String
  result : Option String
  new_session_id : Option String
  error : Option String
deriving DecidableEq, Repr

/-- Outcome of the spawn_blocking(run_container_agent) call as matched in
check_and_run_tasks (task_scheduler.rs lines 158-178): agent finished,
agent returned an error, or the join itself failed.  All three arms only
log, so the value never influences the rest of the tick. -/
inductive RunOutcome where
  | finished (o : ContainerOutput)
  | agentErr (e : String)
  | joinErr (e : String)

/-- Externally visible actions of one scheduler tick, in order: a
db.add_task write or a run_container_agent invocation. -/
inductive Ev where
  | write (t : Task)
  | invoke (i : ContainerInput)
deriving DecidableEq, Repr

/-- The ExecutionRequest built when a task fires (task_scheduler.rs lines
149-156). -/
def scheduledInput (t : Task) : ContainerInput :=
  { prompt := t.prompt
    session_id := "scheduled-task"
    group_folder := t.group_folder
    chat_jid := "scheduled-task-" ++ t.id
    is_main := false
    is_scheduled_task := some true }

/-- The task written by the write-through refresh of next_run
(task_scheduler.rs lines 125-137): only next_run changes. -/
def refreshedTask (toRfc : Int → String) (v : Int) (t : Task) : Task :=
  { t with next_run := some (toRfc v) }

/-- The post-fire recomputation of next_run (task_scheduler.rs lines
182-187), evaluated at the same parsed schedule with now as the new
last_run. -/
def recomputedNextRun (toRfc : Int → String) (now : Int) :
    TaskSchedule → Option String
  | .cron after => (after now).map toRfc
  | .every d => some (toRfc (now + d))

/-- The task written after a fire (task_scheduler.rs lines 180-200):
last_run becomes now and next_run is recomputed. -/
def postRunTask (toRfc : Int → String) (now : Int) (sched : TaskSchedule)
    (t : Task) : Task :=
  { t with last_run := some (toRfc now),
           next_run := recomputedNextRun toRfc now sched }

/-- The refresh condition of task_scheduler.rs lines 122-124: the stored
next_run is absent or unparseable, or parses to a value strictly below the
freshly computed due time. -/
def needsRefresh (parseRfc : String → Option Int) (v : Int) (t : Task) :
    Bool :=
  match t.next_run.bind parseRfc with
  | none => true
  | some w => decide (w < v)

/-- Events produced by the write-through refresh step. -/
def refreshEvents (parseRfc : String → Option Int) (toRfc : Int → String)
    (v : Int) (t : Task) : List Ev :=
  if needsRefresh parseRfc v t then [.write (refreshedTask toRfc v t)] else []

/-- Events produced by the fire step (task_scheduler.rs lines 141-202):
when the due time is at most now, invoke the backend and then persist the
updated last_run and next_run. -/
def fireEvents (toRfc : Int → String) (now : Int) (sched : TaskSchedule)
    (t : Task) (v : Int) : List Ev :=
  if v ≤ now then
    [.invoke (scheduledInput t), .write (postRunTask toRfc now sched t)]
  else []

/-- One iteration of the per-task loop of check_and_run_tasks
(task_scheduler.rs lines 41-209), as the ordered list of externally visible
actions.  some [] covers every logged skip (parse failure, or a cron
schedule with no upcoming occurrence); none means the Every catch-up loop
did not finish within the given fuel, so the tick is still running.  The
run outcome parameter is the controller result, which the source only
logs. -/
def processTask (cronFromStr : String → Option (Int → Option Int))
    (parseRfc : String → Option Int) (toRfc : Int → String) (now : Int)
    (fuel : Nat) (run : RunOutcome) (t : Task) : Option (List Ev) :=
  match parseTaskSchedule cronFromStr t.schedule with
  | none => some []
  | some sched =>
    match computeNextOccurrence parseRfc now fuel sched t.last_run with
    | none => none
    | some none => some []
    | some (some v) =>
      some (refreshEvents parseRfc toRfc v t ++ fireEvents toRfc now sched t v)

/-- The whole per-tick loop over the active task list, concatenating each
task's actions in order; none when some task's catch-up loop never
finishes, in which case the later tasks are never reached. -/
def runTick (cronFromStr : String → Option (Int → Option Int))
    (parseRfc : String → Option Int) (toRfc : Int → String) (now : Int)
    (fuel : Nat) (run : RunOutcome) : List Task → Option (List Ev)
  | [] => some []
  | t :: rest =>
    match processTask cronFromStr parseRfc toRfc now fuel run t with
    | none => none
    | some tr =>
      (runTick cronFromStr parseRfc toRfc now fuel run rest).map
        (fun rtr => tr ++ rtr)

/-- One parsed line of the backend output stream, holding exactly the JSON
fields the decoder in run_container_agent reads (container.rs lines
203-249): ty is val of key type read as a string with empty-string default;
the other fields are the corresponding as_str accesses, none when the key
is absent or not a string.  command collapses the access
val.parameters.as_object, get of key command, as_str. -/
structure StreamRec where
  ty : String
  role : Option String
  content : Option String
  tool_name : Option String
  command : Option String
  output : Option String
deriving DecidableEq, Repr

/-- True when the character list ends with two newline characters (Rust
final_result.ends_with of two newlines). -/
def endsWithBlank (s : String) : Bool :=
  "\n\n".data.isSuffixOf s.data

/-- One step of the stream-json fold of run_container_agent (container.rs
lines 203-250).  The state is the pair of final_result and last_type; the
input is one line, none when serde_json failed to parse it (such lines are
skipped). -/
def decodeStep (acc : String × String) (line : Option StreamRec) :
    String × String :=
  match line with
  | none => acc
  | some r =>
    if r.ty = "message" then
      match r.content with
      | some content =>
        if r.role = some "assistant" then
          let res :=
            if (acc.2 == "tool_use" || acc.2 == "tool_result")
                && (!(acc.1 == "") && !endsWithBlank acc.1) then
              acc.1 ++ "\n\n"
            else acc.1
          (res ++ content, "message")
        else acc
      | none => acc
    else if r.ty = "tool_use" then
      let toolName := r.tool_name.getD "unknown"
      let toolDesc :=
        match r.command with
        | some cmd => toolName ++ " (" ++ cmd ++ ")"
        | none => toolName
      let res :=
        if !(acc.1 == "") && !endsWithBlank acc.1 then acc.1 ++ "\n\n"
        else acc.1
      (res ++ "[RCLAW_USE_TOOL]" ++ toolDesc, "tool_use")
    else if r.ty = "tool_result" then
      match r.output with
      | some out =>
        let res :=
          if !(acc.1 == "") && !endsWithBlank acc.1 then acc.1 ++ "\n\n"
          else acc.1
        (res ++ "[RCLAW_TOOL_RESULT]" ++ out ++ "[RCLAW_END_RESULT]",
         "tool_result")
      | none => acc
    else acc

/-- Rust str::trim on the character list of a string (leading and trailing
whitespace removed). -/
def rustTrim (s : String) : String :=
  String.mk
    (((s.data.dropWhile Char.isWhitespace).reverse.dropWhile
        Char.isWhitespace).reverse)

/-- The full transcript decoding of run_container_agent (container.rs lines
199-254): fold the lines of stdout in order starting from the empty
transcript and empty last_type, then trim. -/
def decodeTranscript (lines : List (Option StreamRec)) : String :=
  rustTrim (lines.foldl decodeStep ("", "")).1

/-- One line of stderr is considered noise when it contains one of the four
benign substrings (container.rs lines 179-188). -/
def containsSub : List Char → List Char → Bool
  | [], pat => pat.isEmpty
  | c :: cs, pat => pat.isPrefixOf (c :: cs) || containsSub cs pat

/-- Noise test applied to each stderr line (container.rs lines 181-186). -/
def noisy (line : String) : Bool :=
  containsSub line.data "DeprecationWarning".data
    || containsSub line.data "punycode".data
    || containsSub line.data "YOLO mode".data
    || containsSub line.data "Loaded cached credentials".data

/-- Splitting a character list at newline characters, keeping every
segment. -/
def splitOnNL : List Char → List (List Char)
  | [] => [[]]
  | c :: cs =>
    if c = '\n' then [] :: splitOnNL cs
    else
      match splitOnNL cs with
      | [] => [[c]]
      | seg :: rest => (c :: seg) :: rest

/-- Strip one trailing carriage-return character, as Rust str::lines does
per line. -/
def stripCR (cs : List Char) : List Char :=
  if cs.getLast? = some '\r' then cs.dropLast else cs

/-- Rust str::lines: split at newlines, a final line ending is optional,
each line loses one trailing carriage return, the empty string has no
lines. -/
def rustLines (s : String) : List String :=
  match s.data with
  | [] => []
  | cs =>
    let segs := splitOnNL cs
    let segs := if cs.getLast? = some '\n' then segs.dropLast else segs
    segs.map (fun seg => String.mk (stripCR seg))

/-- Rust slice join with a newline separator. -/
def joinNL : List String → String
  | [] => ""
  | [s] => s
  | s :: rest => s ++ "\n" ++ joinNL rest

/-- The noise filtering of stderr (container.rs lines 179-188): keep the
lines containing none of the benign substrings and join them with
newlines. -/
def filterStderr (stderr : String) : String :=
  joinNL ((rustLines stderr).filter (fun l => !noisy l))

/-- The outcome of run_container_agent after the exec child has exited
(container.rs lines 173-257), as a function of the exit status (success
flag plus its display string), the parsed stdout lines and the raw stderr:
a non-zero exit yields the error output combining the exit status with the
filtered diagnostics; a zero exit yields success with the decoded
transcript. -/
def execOutcome (statusSuccess : Bool) (statusStr : String)
    (stdoutLines : List (Option StreamRec)) (stderr : String) :
    ContainerOutput :=
  if !statusSuccess then
    { status := "error"
      result := none
      new_session_id := none
      error := some ("Container error (exit status: " ++ statusStr ++ "): "
        ++ filterStderr stderr) }
  else
    { status := "success"
      result := some (decodeTranscript stdoutLines)
      new_session_id := none
      error := none }

/-- The readiness test of wait_for_container_ready (container.rs line 46):
the inspect output is the literal healthy, or the literal true when no
health check is defined. -/
def readyStatus (s : String) : Bool := s == "healthy" || s == "true"

/-- The polling interval of wait_for_container_ready, in milliseconds
(container.rs line 51). -/
def pollIntervalMs : Nat := 200

/-- The readiness timeout of wait_for_container_ready, in milliseconds
(container.rs line 34). -/
def readyTimeoutMs : Nat := 10000

/-- Number of poll attempts before the timeout elapses, idealizing each
docker inspect call as instantaneous: polls happen at multiples of the
interval strictly below the timeout. -/
def maxPolls : Nat := readyTimeoutMs / pollIntervalMs

/-- The bail message of wait_for_container_ready (container.rs line 54)
for the singleton container name used by run_container_agent. -/
def timeoutMsg : String :=
  "Timeout waiting for container rclaw-agent-singleton to be ready"

/-- The polling loop of wait_for_container_ready (container.rs lines
38-54) over the oracle giving the status string observed by the i-th
inspect call: ok when some remaining poll observes a ready status, error
with the bail message when the poll budget is exhausted. -/
def waitLoop (polls : Nat → String) : Nat → Nat → Except String Unit
  | _, 0 => .error timeoutMsg
  | i, fuel + 1 =>
    if readyStatus (polls i) then .ok () else waitLoop polls (i + 1) fuel

/-- wait_for_container_ready (container.rs lines 32-55) with the idealized
poll budget. -/
def waitForContainerReady (polls : Nat → String) : Except String Unit :=
  waitLoop polls 0 maxPolls

/-- Result of the backend lifecycle phase of run_container_agent
(container.rs lines 74-161): a transport error returned as an anyhow Err
(here, the readiness timeout), the error ContainerOutput returned when
docker run fails, or reaching the exec call, at which point the serialized
request is written to the backend. -/
inductive AgentFlowResult where
  | transportErr (msg : String)
  | createFailed (out : ContainerOutput)
  | requestSent
deriving DecidableEq, Repr

/-- The error output built when creating the container fails (container.rs
lines 130-137). -/
def createFailedOutput : ContainerOutput :=
  { status := "error"
    result := none
    new_session_id := none
    error := some "Failed to create container rclaw-agent-singleton" }

/-- The backend lifecycle branching of run_container_agent (container.rs
lines 74-161).  inspectStatus is the docker inspect State.Status string,
none when the inspect command fails (container absent); createOk is the
exit success of docker run; polls is the status oracle of the readiness
loop.  A running container proceeds directly; a stopped container is
started and awaited; an absent container is created and awaited, and a
failed creation returns the error output without any wait. -/
def agentFlow (inspectStatus : Option String) (createOk : Bool)
    (polls : Nat → String) : AgentFlowResult :=
  match inspectStatus with
  | some st =>
    if st = "running" then .requestSent
    else
      match waitForContainerReady polls with
      | .ok _ => .requestSent
      | .error e => .transportErr e
  | none =>
    if createOk then
      match waitForContainerReady polls with
      | .ok _ => .requestSent
      | .error e => .transportErr e
    else .createFailed createFailedOutput

/-- Whenever the catch-up loop returns a value, that value is strictly
greater than now: the loop only stops on now < calculated_next. -/
lemma catchUp_pos (d now : Int) :
    ∀ fuel c r, catchUp d now fuel c = some r → now < r := by
  intro fuel
  induction fuel with
  | zero =>
    intro c r h
    by_cases hc : now < c
    · simp [catchUp, hc] at h
      exact h ▸ hc
    · simp [catchUp, hc] at h
  | succ n ih =>
    intro c r h
    by_cases hc : now < c
    · simp [catchUp, hc] at h
      exact h ▸ hc
    · simp [catchUp, hc] at h
      exact ih _ _ h

/-- A successful catch-up run starting at c returns c plus a whole number
of durations, every earlier multiple being at most now. -/
lemma catchUp_steps (d now : Int) :
    ∀ fuel c r, catchUp d now fuel c = some r →
      ∃ m : Nat, r = c + m * d ∧ ∀ j : Nat, j < m → c + j * d ≤ now := by
  intro fuel
  induction fuel with
  | zero =>
    intro c r h
    by_cases hc : now < c
    · simp [catchUp, hc] at h
      exact ⟨0, by simp [h], by simp⟩
    · simp [catchUp, hc] at h
  | succ n ih =>
    intro c r h
    by_cases hc : now < c
    · simp [catchUp, hc] at h
      exact ⟨0, by simp [h], by simp⟩
    · simp [catchUp, hc] at h
      obtain ⟨m, hm, hall⟩ := ih _ _ h
      refine ⟨m + 1, by push_cast [hm]; ring, ?_⟩
      intro j hj
      cases j with
      | zero => simpa using le_of_not_lt hc
      | succ j' =>
        have := hall j' (by omega)
        calc c + (j' + 1 : Nat) * d = (c + d) + j' * d := by push_cast; ring
        _ ≤ now := this

/-- With a strictly positive duration the catch-up loop finishes once the
fuel exceeds the distance to now divided by the duration; stated with the
simple sufficient bound now - c < fuel * d. -/
lemma catchUp_total (d now : Int) (hd : 0 < d) :
    ∀ (fuel : Nat) (c : Int), now - c < (fuel : Int) * d →
      ∃ r, catchUp d now fuel c = some r := by
  intro fuel
  induction fuel with
  | zero =>
    intro c h
    have hc : now < c := by push_cast at h; omega
    exact ⟨c, by simp [catchUp, hc]⟩
  | succ n ih =>
    intro c h
    by_cases hc : now < c
    · exact ⟨c, by simp [catchUp, hc]⟩
    · have : now - (c + d) < (n : Int) * d := by push_cast at h ⊢; nlinarith
      obtain ⟨r, hr⟩ := ih (c + d) this
      exact ⟨r, by simp [catchUp, hc, hr]⟩

/-- With a non-positive duration and a start at most now, the loop
condition never fails, so every fuel budget is exhausted: the source loop
runs forever. -/
lemma catchUp_stuck (d now : Int) (hd : d ≤ 0) :
    ∀ fuel c, c ≤ now → catchUp d now fuel c = none := by
  intro fuel
  induction fuel with
  | zero =>
    intro c hc
    simp [catchUp, not_lt.mpr hc]
  | succ n ih =>
    intro c hc
    have : ¬ now < c := not_lt.mpr hc
    simp [catchUp, this]
    exact ih (c + d) (by omega)

/-- With a strictly positive duration the catch-up loop finishes under
some fuel budget, from any starting point. -/
lemma catchUp_terminates (d now c : Int) (hd : 0 < d) :
    ∃ (fuel : Nat) (r : Int), catchUp d now fuel c = some r := by
  have hn : now - c < (((now - c).toNat + 1 : Nat) : Int) * d := by
    have h1 : now - c < ((now - c).toNat + 1 : Int) := by
      rcases le_or_lt 0 (now - c) with h | h
      · rw [Int.toNat_of_nonneg h]; omega
      · have := Int.toNat_of_nonpos (le_of_lt h)
        omega
    have h2 : ((now - c).toNat + 1 : Int) ≤ ((now - c).toNat + 1 : Int) * d :=
      le_mul_of_one_le_right (by positivity) (by omega)
    push_cast
    push_cast at h1 h2
    omega
  obtain ⟨r, hr⟩ := catchUp_total d now hd _ _ hn
  exact ⟨_, r, hr⟩

/-- A schedule string parsed to the cron variant came from the cron parsing
oracle: the interval branch never produces a cron schedule. -/
lemma parseTaskSchedule_cron
    {cronFromStr : String → Option (Int → Option Int)} {s : String}
    {f : Int → Option Int}
    (h : parseTaskSchedule cronFromStr s = some (.cron f)) :
    cronFromStr s = some f := by
  unfold parseTaskSchedule at h
  split at h
  · rcases parseEveryDuration s with _ | d <;> simp at h
  · rcases hc : cronFromStr s with _ | g <;> simp [hc] at h
    rw [h]

/-- If some poll within the budget reports readiness, the wait loop
succeeds. -/
lemma waitLoop_ok (polls : Nat → String) :
    ∀ fuel i, (∃ j, j < fuel ∧ readyStatus (polls (i + j)) = true) →
      waitLoop polls i fuel = .ok () := by
  intro fuel
  induction fuel with
  | zero => rintro i ⟨j, hj, _⟩; omega
  | succ n ih =>
    rintro i ⟨j, hj, hready⟩
    by_cases h0 : readyStatus (polls i) = true
    · simp [waitLoop, h0]
    · cases j with
      | zero => simp at hready; exact absurd hready h0
      | succ j' =>
        have : waitLoop polls (i + 1) n = .ok () :=
          ih (i + 1) ⟨j', by omega, by simpa [Nat.add_assoc, Nat.add_comm 1 j'] using hready⟩
        simp [waitLoop, h0, this]

/-- If no poll within the budget reports readiness, the wait loop fails
with the timeout message. -/
lemma waitLoop_timeout (polls : Nat → String) :
    ∀ fuel i, (∀ j, j < fuel → readyStatus (polls (i + j)) = false) →
      waitLoop polls i fuel = .error timeoutMsg := by
  intro fuel
  induction fuel with
  | zero => intro i _; rfl
  | succ n ih =>
    intro i hall
    have h0 : readyStatus (polls i) = false := by simpa using hall 0 (by omega)
    have : waitLoop polls (i + 1) n = .error timeoutMsg := by
      refine ih (i + 1) fun j hj => ?_
      simpa [Nat.add_assoc, Nat.add_comm 1 j] using hall (j + 1) (by omega)
    simp [waitLoop, h0, this]

/-- C1: on a scheduler tick, for every task whose schedule string parses
successfully — a cron expression whose next-occurrence function is strictly
after its argument, or an interval with strictly positive duration — the
freshly computed next_occurrence is strictly greater than now, hence the
fire condition next_occurrence at most now never holds and the scheduler
path never invokes run_container_agent for such a task. -/
theorem c1_valid_schedule_never_fires
    (cronFromStr : String → Option (Int → Option Int))
    (parseRfc : String → Option Int) (toRfc : Int → String)
    (now : Int) (fuel : Nat) (run : RunOutcome) (t : Task)
    (sched : TaskSchedule)
    (hcron : ∀ s f, cronFromStr s = some f → ∀ u v, f u = some v → u < v)
    (hparse : parseTaskSchedule cronFromStr t.schedule = some sched)
    (hpos : ∀ d, sched = .every d → 0 < d) :
    (∀ v, computeNextOccurrence parseRfc now fuel sched t.last_run =
        some (some v) → now < v) ∧
      ∀ tr, processTask cronFromStr parseRfc toRfc now fuel run t = some tr →
        ∀ i, Ev.invoke i ∉ tr := by
  have hgt : ∀ v, computeNextOccurrence parseRfc now fuel sched t.last_run =
      some (some v) → now < v := by
    intro v hv
    cases sched with
    | cron after =>
      have hf := parseTaskSchedule_cron hparse
      simp [computeNextOccurrence] at hv
      exact hcron _ _ hf _ _ hv
    | every d =>
      have hd : 0 < d := hpos d rfl
      rcases hlast : t.last_run.bind parseRfc with _ | last
      · simp [computeNextOccurrence, hlast] at hv
        omega
      · simp [computeNextOccurrence, hlast] at hv
        exact catchUp_pos d now fuel _ v hv
  refine ⟨hgt, ?_⟩
  intro tr htr i hmem
  unfold processTask at htr
  rw [hparse] at htr
  dsimp only at htr
  rcases hcn : computeNextOccurrence parseRfc now fuel sched t.last_run
    with _ | ov
  · rw [hcn] at htr
    exact Option.noConfusion htr
  · rw [hcn] at htr
    rcases ov with _ | v
    · simp at htr
      subst htr
      simp at hmem
    · have hv : now < v := hgt v hcn
      simp at htr
      rw [← htr] at hmem
      cases hnr : needsRefresh parseRfc v t <;>
        simp [fireEvents, not_le.mpr hv, refreshEvents, hnr] at hmem

/-- Witness for C1 at the schedule string "every 5s", a trivial cron
oracle, now = 0 and an empty fuel budget. -/
theorem c1_witness :
    parseTaskSchedule (fun _ => none) "every 5s" = some (.every 5000) ∧
      ((∀ v, computeNextOccurrence (fun _ => none) 0 0 (.every 5000)
          (Task.last_run ⟨"t1", "g", "p", "every 5s", none, none, "active"⟩) =
          some (some v) → 0 < v) ∧
        ∀ tr, processTask (fun _ => none) (fun _ => none) (fun _ => "") 0 0
            (.joinErr "") ⟨"t1", "g", "p", "every 5s", none, none, "active"⟩ =
            some tr → ∀ i, Ev.invoke i ∉ tr) := by
  refine ⟨rfl, ?_⟩
  exact c1_valid_schedule_never_fires (fun _ => none) (fun _ => none)
    (fun _ => "") 0 0 (.joinErr "")
    ⟨"t1", "g", "p", "every 5s", none, none, "active"⟩ (.every 5000)
    (fun s f h => absurd h (by simp)) rfl
    (by intro d h; cases h; decide)

/-- C2 counterexample: the schedule string "every 0s" parses successfully
to the interval variant with zero duration, and for last_run = 0 in the
past of now = 1000 the catch-up computation yields no result at any fuel
budget, so no next-due value greater than now is ever produced,
contradicting the claim for the schedule Every(0, s). -/
theorem c2_counterexample :
    parseTaskSchedule (fun _ => none) "every 0s" = some (.every 0) ∧
      ¬ ∃ fuel r, catchUp 0 1000 fuel ((0 : Int) + 0) = some r := by
  refine ⟨rfl, ?_⟩
  rintro ⟨fuel, r, hr⟩
  rw [catchUp_stuck 0 1000 le_rfl fuel ((0 : Int) + 0) (by norm_num)] at hr
  exact Option.noConfusion hr

/-- C2 (amended): for every interval schedule Every(amount, unit) whose
resulting duration is strictly positive, the next-due computation returns
now + duration when last_run is absent or unparseable, and when last_run is
present it returns last_run + k * duration for the least k at least 1
making the result strictly greater than now; in particular the result is
strictly greater than now. -/
theorem c2_amended (parseRfc : String → Option Int) (d last now : Int)
    (fuel : Nat) (hd : 0 < d) :
    computeNextOccurrence parseRfc now fuel (.every d) none =
        some (some (now + d)) ∧
      (∀ s, parseRfc s = none →
        computeNextOccurrence parseRfc now fuel (.every d) (some s) =
          some (some (now + d))) ∧
      ∃ n r, catchUp d now n (last + d) = some r ∧ now < r ∧
        ∃ k : Nat, 1 ≤ k ∧ r = last + (k : Int) * d ∧
          ∀ j : Nat, 1 ≤ j → now < last + (j : Int) * d → k ≤ j := by
  refine ⟨by simp [computeNextOccurrence], fun s hs => by
    simp [computeNextOccurrence, hs], ?_⟩
  obtain ⟨n, r, hr⟩ := catchUp_terminates d now (last + d) hd
  refine ⟨_, r, hr, catchUp_pos d now _ _ r hr, ?_⟩
  obtain ⟨m, hm, hall⟩ := catchUp_steps d now _ _ r hr
  refine ⟨m + 1, by omega, by push_cast [hm]; ring, ?_⟩
  intro j hj1 hjgt
  by_contra hlt
  have hjm : j - 1 < m := by omega
  have h2 := hall (j - 1) hjm
  have hj1' : ((j - 1 : Nat) : Int) = (j : Int) - 1 := by push_cast [hj1]; ring
  rw [hj1'] at h2
  have : last + (j : Int) * d ≤ now := by nlinarith [h2]
  omega

/-- Witness for C2 (amended) with duration 2, last_run -5 and now = 3. -/
theorem c2_witness :
    (0 : Int) < 2 ∧
      (computeNextOccurrence (fun _ => none) 3 0 (.every 2) none =
          some (some (3 + 2)) ∧
        (∀ s, (fun (_ : String) => (none : Option Int)) s = none →
          computeNextOccurrence (fun _ => none) 3 0 (.every 2) (some s) =
            some (some (3 + 2))) ∧
        ∃ n r, catchUp 2 3 n (-5 + 2) = some r ∧ 3 < r ∧
          ∃ k : Nat, 1 ≤ k ∧ r = -5 + (k : Int) * 2 ∧
            ∀ j : Nat, 1 ≤ j → 3 < -5 + (j : Int) * 2 → k ≤ j) :=
  ⟨by decide, c2_amended (fun _ => none) 2 (-5) 3 0 (by decide)⟩

/-- The event sequence of the worked example in the specification: two
assistant fragments, a shell tool invocation with a command parameter, and
a tool result. -/
def exampleEvents : List (Option StreamRec) :=
  [some ⟨"message", some "assistant", some "Hi ", none, none, none⟩,
   some ⟨"message", some "assistant", some "there", none, none, none⟩,
   some ⟨"tool_use", none, none, some "shell", some "ls", none⟩,
   some ⟨"tool_result", none, none, none, none, some "file.txt"⟩]

/-- C3 counterexample: decoding the example event sequence yields the
transcript with the marker strings actually used by the source, which
differs from the transcript the claim states. -/
theorem c3_counterexample :
    decodeTranscript exampleEvents =
        "Hi there\n\n[RCLAW_USE_TOOL]shell (ls)\n\n[RCLAW_TOOL_RESULT]file.txt[RCLAW_END_RESULT]" ∧
      decodeTranscript exampleEvents ≠
        "Hi there\n\n[TOOL_USE]shell (ls)\n\n[TOOL_RESULT]file.txt[END_RESULT]" :=
  ⟨rfl, by decide⟩

/-- C3 (amended): decoding the example event sequence yields exactly the
transcript with tool invocations rendered as RCLAW_USE_TOOL markers with
the name and command in parentheses, and tool results bounded by the
RCLAW_TOOL_RESULT and RCLAW_END_RESULT markers. -/
theorem c3_amended_decode_example :
    decodeTranscript exampleEvents =
      "Hi there\n\n[RCLAW_USE_TOOL]shell (ls)\n\n[RCLAW_TOOL_RESULT]file.txt[RCLAW_END_RESULT]" :=
  rfl

/-- Decoder step following the words of the claim: identical to decodeStep
except that an assistant fragment arriving after a tool invocation or tool
result is always preceded by an inserted blank-line separator, with no
guard on the current transcript.  Modelled from the claim for comparison
with the source decoder. -/
def decodeStepClaimed (acc : String × String) (line : Option StreamRec) :
    String × String :=
  match line with
  | none => acc
  | some r =>
    if r.ty = "message" then
      match r.content with
      | some content =>
        if r.role = some "assistant" then
          let res :=
            if acc.2 == "tool_use" || acc.2 == "tool_result" then
              acc.1 ++ "\n\n"
            else acc.1
          (res ++ content, "message")
        else acc
      | none => acc
    else decodeStep acc line

/-- The transcript decoder following the claim wording. -/
def decodeTranscriptClaimed (lines : List (Option StreamRec)) : String :=
  rustTrim (lines.foldl decodeStepClaimed ("", "")).1

/-- A tool invocation whose tool name ends in a blank line, followed by an
assistant fragment: the transcript already ends with a blank line when the
fragment arrives. -/
def sepEvents : List (Option StreamRec) :=
  [some ⟨"tool_use", none, none, some "sh\n\n", none, none⟩,
   some ⟨"message", some "assistant", some "hi", none, none, none⟩]

/-- C9 counterexample: after a tool invocation the source inserts the
blank-line separator only when the transcript does not already end with
one, so on sepEvents the source decoder and the decoder following the
claim wording disagree. -/
theorem c9_counterexample :
    decodeTranscript sepEvents = "[RCLAW_USE_TOOL]sh\n\nhi" ∧
      decodeTranscriptClaimed sepEvents = "[RCLAW_USE_TOOL]sh\n\n\n\nhi" ∧
      decodeTranscript sepEvents ≠ decodeTranscriptClaimed sepEvents :=
  ⟨rfl, rfl, by decide⟩

/-- C9 (amended): the transcript decoder is a pure fold over the lines in
order; unparseable lines, records of unrecognized type and message records
whose role is not assistant are skipped; consecutive assistant fragments
are concatenated with no separator unless the preceding emitted unit was a
tool invocation or tool result, in which case a blank-line separator is
inserted first provided the transcript is non-empty and does not already
end with one; the final transcript is the fold result trimmed, and the
empty sequence yields the empty transcript. -/
theorem c9_amended_decoder_fold :
    decodeTranscript [] = "" ∧
      (∀ acc : String × String, decodeStep acc none = acc) ∧
      (∀ (acc : String × String) (r : StreamRec), r.ty ≠ "message" →
        r.ty ≠ "tool_use" → r.ty ≠ "tool_result" →
        decodeStep acc (some r) = acc) ∧
      (∀ (acc : String × String) (r : StreamRec), r.ty = "message" →
        r.role ≠ some "assistant" → decodeStep acc (some r) = acc) ∧
      (∀ (res : String) (r : StreamRec) (c : String), r.ty = "message" →
        r.role = some "assistant" → r.content = some c →
        decodeStep (res, "message") (some r) = (res ++ c, "message")) ∧
      (∀ (res last : String) (r : StreamRec) (c : String), r.ty = "message" →
        r.role = some "assistant" → r.content = some c →
        (last = "tool_use" ∨ last = "tool_result") →
        decodeStep (res, last) (some r) =
          ((if !(res == "") && !endsWithBlank res then res ++ "\n\n"
            else res) ++ c, "message")) ∧
      ∀ lines, decodeTranscript lines =
        rustTrim (lines.foldl decodeStep ("", "")).1 := by
  refine ⟨rfl, fun acc => rfl, ?_, ?_, ?_, ?_, fun lines => rfl⟩
  · intro acc r h1 h2 h3
    cases hc : r.content <;> simp [decodeStep, h1, h2, h3, hc]
  · intro acc r h1 h2
    cases hc : r.content <;> simp [decodeStep, h1, h2, hc]
  · intro res r c h1 h2 h3
    simp [decodeStep, h1, h2, h3]
  · intro res last r c h1 h2 h3 h4
    rcases h4 with h4 | h4 <;> subst h4 <;> simp [decodeStep, h1, h2, h3]

/-- Witness for C9 (amended), instantiating each conditional component at
a concrete state and record. -/
theorem c9_witness :
    decodeStep ("a", "message")
        (some ⟨"other", none, none, none, none, none⟩) = ("a", "message") ∧
      decodeStep ("a", "message")
        (some ⟨"message", some "user", some "x", none, none, none⟩) =
        ("a", "message") ∧
      decodeStep ("a", "message")
        (some ⟨"message", some "assistant", some "x", none, none, none⟩) =
        ("a" ++ "x", "message") ∧
      decodeStep ("a", "tool_use")
        (some ⟨"message", some "assistant", some "x", none, none, none⟩) =
        ((if !("a" == "") && !endsWithBlank "a" then "a" ++ "\n\n" else "a")
          ++ "x", "message") := by
  refine ⟨?_, ?_, ?_, ?_⟩
  · exact c9_amended_decoder_fold.2.2.1 ("a", "message") _ (by decide)
      (by decide) (by decide)
  · exact c9_amended_decoder_fold.2.2.2.1 ("a", "message") _ rfl (by decide)
  · exact c9_amended_decoder_fold.2.2.2.2.1 "a" _ "x" rfl rfl rfl
  · exact c9_amended_decoder_fold.2.2.2.2.2.1 "a" "tool_use" _ "x" rfl rfl
      rfl (Or.inl rfl)

/-- C4 counterexample: with a non-zero exit status and a diagnostic stream
of a single benign line, the noise-filtered diagnostics are empty yet
run_container_agent still produces the failure result, so failure does not
hold exactly when the filtered diagnostics are non-empty. -/
theorem c4_counterexample :
    filterStderr "Loaded cached credentials." = "" ∧
      (execOutcome false "1" [] "Loaded cached credentials.").status =
        "error" ∧
      (execOutcome false "1" [] "Loaded cached credentials.").error =
        some "Container error (exit status: 1): " :=
  ⟨rfl, rfl, rfl⟩

/-- C4 (amended): whenever the backend exec exits with non-zero status,
run_container_agent produces the failure result regardless of the filtered
diagnostics; the failure message combines the exit status with the
noise-filtered diagnostics, and the filtering drops exactly the lines
containing one of the known benign substrings before joining. -/
theorem c4_amended_nonzero_exit_fails (statusStr stderr : String)
    (outLines : List (Option StreamRec)) :
    (execOutcome false statusStr outLines stderr).status = "error" ∧
      (execOutcome false statusStr outLines stderr).result = none ∧
      (execOutcome false statusStr outLines stderr).error =
        some ("Container error (exit status: " ++ statusStr ++ "): "
          ++ filterStderr stderr) ∧
      filterStderr stderr =
        joinNL ((rustLines stderr).filter (fun l => !noisy l)) ∧
      ∀ l ∈ (rustLines stderr).filter (fun l => !noisy l),
        noisy l = false := by
  refine ⟨rfl, rfl, rfl, rfl, ?_⟩
  intro l hl
  simp [List.mem_filter] at hl
  exact hl.2

/-- Witness for C4 (amended) at a concrete status and diagnostic
stream. -/
theorem c4_witness :
    (execOutcome false "1" [] "boom\nLoaded cached credentials.").status =
        "error" ∧
      (execOutcome false "1" [] "boom\nLoaded cached credentials.").error =
        some ("Container error (exit status: " ++ "1" ++ "): "
          ++ filterStderr "boom\nLoaded cached credentials.") := by
  have h := c4_amended_nonzero_exit_fails "1"
    "boom\nLoaded cached credentials." []
  exact ⟨h.1, h.2.2.1⟩

/-- C5: when the backend is not running initially, the controller polls
the readiness status at the fixed 200 millisecond interval up to the 10
second timeout (idealized as maxPolls instantaneous inspections): if some
poll within the budget reports healthy or running, the flow reaches the
exec call and the request is sent; if none does, the flow fails with the
timeout transport error and no request is ever sent. -/
theorem c5_backend_readiness (st : String) (createOk : Bool)
    (polls : Nat → String) (hst : st ≠ "running") :
    pollIntervalMs = 200 ∧ readyTimeoutMs = 10000 ∧ maxPolls = 50 ∧
      ((∃ j, j < maxPolls ∧ readyStatus (polls j) = true) →
        agentFlow (some st) createOk polls = .requestSent) ∧
      ((∀ j, j < maxPolls → readyStatus (polls j) = false) →
        agentFlow (some st) createOk polls = .transportErr timeoutMsg ∧
          agentFlow (some st) createOk polls ≠ .requestSent) := by
  refine ⟨rfl, rfl, rfl, ?_, ?_⟩
  · rintro ⟨j, hj, hready⟩
    have hw : waitForContainerReady polls = .ok () :=
      waitLoop_ok polls maxPolls 0 ⟨j, hj, by simpa using hready⟩
    simp [agentFlow, hst, waitForContainerReady] at hw ⊢
    simp [hw]
  · intro hall
    have hw : waitForContainerReady polls = .error timeoutMsg :=
      waitLoop_timeout polls maxPolls 0 (fun j hj => by simpa using hall j hj)
    constructor <;> simp [agentFlow, hst, waitForContainerReady] at hw ⊢ <;>
      simp [hw]

/-- Witness for C5: a stopped container with an always-healthy poll oracle
proceeds to send the request; with a never-ready oracle the flow fails
with the timeout error. -/
theorem c5_witness :
    ("exited" : String) ≠ "running" ∧
      agentFlow (some "exited") true (fun _ => "healthy") = .requestSent ∧
      agentFlow (some "exited") true (fun _ => "starting") =
        .transportErr timeoutMsg := by
  refine ⟨by decide, ?_, ?_⟩
  · exact (c5_backend_readiness "exited" true (fun _ => "healthy")
      (by decide)).2.2.2.1 ⟨0, by decide, by decide⟩
  · exact ((c5_backend_readiness "exited" true (fun _ => "starting")
      (by decide)).2.2.2.2 (fun j hj => by decide)).1

/-- C6: a schedule-parsing failure is a per-task soft failure: the failing
task produces no writes and no invocation on that tick (so it stays active
for the next tick), and the tick over a task list containing it produces
exactly the actions of the tick over the list without it. -/
theorem c6_parse_failure_is_soft
    (cronFromStr : String → Option (Int → Option Int))
    (parseRfc : String → Option Int) (toRfc : Int → String)
    (now : Int) (fuel : Nat) (run : RunOutcome) (t : Task)
    (ht : parseTaskSchedule cronFromStr t.schedule = none)
    (ts1 ts2 : List Task) :
    processTask cronFromStr parseRfc toRfc now fuel run t = some [] ∧
      runTick cronFromStr parseRfc toRfc now fuel run (ts1 ++ t :: ts2) =
        runTick cronFromStr parseRfc toRfc now fuel run (ts1 ++ ts2) := by
  have hp : processTask cronFromStr parseRfc toRfc now fuel run t =
      some [] := by
    unfold processTask
    rw [ht]
  refine ⟨hp, ?_⟩
  induction ts1 with
  | nil => simp [runTick, hp]
  | cons a as ih =>
    cases hpa : processTask cronFromStr parseRfc toRfc now fuel run a with
    | none => simp [runTick, hpa]
    | some tr => simp [runTick, hpa, ih]

/-- Witness for C6: the invalid schedule string "every Xq" is skipped and
a second valid task in the same tick is evaluated as if alone. -/
theorem c6_witness :
    parseTaskSchedule (fun _ => none)
        (Task.schedule ⟨"t1", "g", "p", "every Xq", none, none, "active"⟩) =
        none ∧
      (processTask (fun _ => none) (fun _ => none) (fun _ => "T") 0 0
          (.joinErr "") ⟨"t1", "g", "p", "every Xq", none, none, "active"⟩ =
          some [] ∧
        runTick (fun _ => none) (fun _ => none) (fun _ => "T") 0 0
            (.joinErr "")
            ([] ++ ⟨"t1", "g", "p", "every Xq", none, none, "active"⟩ ::
              [⟨"t2", "g", "p", "every 5s", none, none, "active"⟩]) =
          runTick (fun _ => none) (fun _ => none) (fun _ => "T") 0 0
            (.joinErr "")
            ([] ++ [⟨"t2", "g", "p", "every 5s", none, none, "active"⟩])) :=
  ⟨rfl, c6_parse_failure_is_soft (fun _ => none) (fun _ => none)
    (fun _ => "T") 0 0 (.joinErr "")
    ⟨"t1", "g", "p", "every Xq", none, none, "active"⟩ rfl []
    [⟨"t2", "g", "p", "every 5s", none, none, "active"⟩]⟩

/-- C7: when a task fires, the backend is invoked with the request built
from the task with is_main false and is_scheduled_task true; afterwards —
whatever the controller outcome was — the task is written back with
last_run set to now and next_run recomputed from the same parsed schedule,
and a fire does not prevent the remaining tasks of the tick from being
evaluated. -/
theorem c7_fire_updates_task
    (cronFromStr : String → Option (Int → Option Int))
    (parseRfc : String → Option Int) (toRfc : Int → String)
    (now : Int) (fuel : Nat) (run : RunOutcome) (t : Task)
    (sched : TaskSchedule) (v : Int)
    (h1 : parseTaskSchedule cronFromStr t.schedule = some sched)
    (h2 : computeNextOccurrence parseRfc now fuel sched t.last_run =
      some (some v))
    (h3 : v ≤ now) :
    processTask cronFromStr parseRfc toRfc now fuel run t =
        some (refreshEvents parseRfc toRfc v t ++
          [.invoke (scheduledInput t),
           .write (postRunTask toRfc now sched t)]) ∧
      (scheduledInput t).is_main = false ∧
      (scheduledInput t).is_scheduled_task = some true ∧
      (postRunTask toRfc now sched t).last_run = some (toRfc now) ∧
      (postRunTask toRfc now sched t).next_run =
        recomputedNextRun toRfc now sched ∧
      (∀ run2, processTask cronFromStr parseRfc toRfc now fuel run2 t =
        processTask cronFromStr parseRfc toRfc now fuel run t) ∧
      ∀ rest, runTick cronFromStr parseRfc toRfc now fuel run (t :: rest) =
        (runTick cronFromStr parseRfc toRfc now fuel run rest).map
          (fun rtr => (refreshEvents parseRfc toRfc v t ++
            [.invoke (scheduledInput t),
             .write (postRunTask toRfc now sched t)]) ++ rtr) := by
  have hp : processTask cronFromStr parseRfc toRfc now fuel run t =
      some (refreshEvents parseRfc toRfc v t ++
        [.invoke (scheduledInput t),
         .write (postRunTask toRfc now sched t)]) := by
    unfold processTask
    rw [h1]
    dsimp only
    rw [h2]
    dsimp only
    rw [fireEvents, if_pos h3]
  refine ⟨hp, rfl, rfl, rfl, rfl, fun run2 => rfl, fun rest => ?_⟩
  simp only [runTick, hp]

/-- Witness for C7: the schedule "every 0s" with no stored last_run fires
immediately at now = 0. -/
theorem c7_witness :
    parseTaskSchedule (fun _ => none)
        (Task.schedule ⟨"t1", "g", "p", "every 0s", none, none, "active"⟩) =
        some (.every 0) ∧
      computeNextOccurrence (fun _ => none) 0 0 (.every 0)
        (Task.last_run ⟨"t1", "g", "p", "every 0s", none, none, "active"⟩) =
        some (some 0) ∧
      (0 : Int) ≤ 0 ∧
      processTask (fun _ => none) (fun _ => none) (fun _ => "T") 0 0
          (.joinErr "") ⟨"t1", "g", "p", "every 0s", none, none, "active"⟩ =
        some (refreshEvents (fun _ => none) (fun _ => "T") 0
            ⟨"t1", "g", "p", "every 0s", none, none, "active"⟩ ++
          [.invoke (scheduledInput
              ⟨"t1", "g", "p", "every 0s", none, none, "active"⟩),
           .write (postRunTask (fun _ => "T") 0 (.every 0)
              ⟨"t1", "g", "p", "every 0s", none, none, "active"⟩)]) ∧
      (scheduledInput
          ⟨"t1", "g", "p", "every 0s", none, none, "active"⟩).is_main =
        false ∧
      (scheduledInput
          ⟨"t1", "g", "p", "every 0s", none, none,
            "active"⟩).is_scheduled_task = some true := by
  have h := c7_fire_updates_task (fun _ => none) (fun _ => none)
    (fun _ => "T") 0 0 (.joinErr "")
    ⟨"t1", "g", "p", "every 0s", none, none, "active"⟩ (.every 0) 0
    rfl rfl (by decide)
  exact ⟨rfl, rfl, by decide, h.1, h.2.1, h.2.2.1⟩

/-- C8: once a due time v is computed, the tick first performs the
write-through refresh — exactly when the stored next_run is absent,
unparseable, or parses strictly below v, the task is written back with
next_run set to v, before and independently of the fire decision — and
otherwise the stored next_run is left unchanged. -/
theorem c8_writethrough_refresh
    (cronFromStr : String → Option (Int → Option Int))
    (parseRfc : String → Option Int) (toRfc : Int → String)
    (now : Int) (fuel : Nat) (run : RunOutcome) (t : Task)
    (sched : TaskSchedule) (v : Int)
    (h1 : parseTaskSchedule cronFromStr t.schedule = some sched)
    (h2 : computeNextOccurrence parseRfc now fuel sched t.last_run =
      some (some v)) :
    processTask cronFromStr parseRfc toRfc now fuel run t =
        some (refreshEvents parseRfc toRfc v t ++
          fireEvents toRfc now sched t v) ∧
      ((t.next_run.bind parseRfc = none ∨
          ∃ w, t.next_run.bind parseRfc = some w ∧ w < v) →
        refreshEvents parseRfc toRfc v t =
          [.write { t with next_run := some (toRfc v) }]) ∧
      ((∃ w, t.next_run.bind parseRfc = some w ∧ v ≤ w) →
        refreshEvents parseRfc toRfc v t = []) ∧
      ∀ e ∈ refreshEvents parseRfc toRfc v t, ∀ i, e ≠ Ev.invoke i := by
  refine ⟨?_, ?_, ?_, ?_⟩
  · unfold processTask
    rw [h1]
    dsimp only
    rw [h2]
  · rintro (h | ⟨w, hw, hlt⟩)
    · simp [refreshEvents, needsRefresh, refreshedTask, h]
    · simp [refreshEvents, needsRefresh, refreshedTask, hw, hlt]
  · rintro ⟨w, hw, hge⟩
    simp [refreshEvents, needsRefresh, hw, not_lt.mpr hge]
  · intro e he i
    unfold refreshEvents at he
    split at he <;> simp at he
    simp [he]

/-- Witness for C8: a task with an unparseable stored next_run gets the
write-through refresh. -/
theorem c8_witness :
    parseTaskSchedule (fun _ => none)
        (Task.schedule
          ⟨"t1", "g", "p", "every 5s", none, some "B", "active"⟩) =
        some (.every 5000) ∧
      computeNextOccurrence (fun _ => none) 0 0 (.every 5000)
        (Task.last_run
          ⟨"t1", "g", "p", "every 5s", none, some "B", "active"⟩) =
        some (some 5000) ∧
      (processTask (fun _ => none) (fun _ => none) (fun _ => "T") 0 0
          (.joinErr "")
          ⟨"t1", "g", "p", "every 5s", none, some "B", "active"⟩ =
        some (refreshEvents (fun _ => none) (fun _ => "T") 5000
            ⟨"t1", "g", "p", "every 5s", none, some "B", "active"⟩ ++
          fireEvents (fun _ => "T") 0 (.every 5000)
            ⟨"t1", "g", "p", "every 5s", none, some "B", "active"⟩ 5000)) ∧
      refreshEvents (fun _ => none) (fun _ => "T") 5000
          ⟨"t1", "g", "p", "every 5s", none, some "B", "active"⟩ =
        [.write { (⟨"t1", "g", "p", "every 5s", none, some "B", "active"⟩ :
            Task) with next_run := some ((fun _ => "T") 5000) }] := by
  have h := c8_writethrough_refresh (fun _ => none) (fun _ => none)
    (fun _ => "T") 0 0 (.joinErr "")
    ⟨"t1", "g", "p", "every 5s", none, some "B", "active"⟩ (.every 5000) 5000
    rfl rfl
  exact ⟨rfl, rfl, h.1, h.2.1 (Or.inl rfl)⟩

/-- C10: for an Every schedule with a stored, parseable last_run not in
the future, the catch-up computation terminates under some fuel budget if
and only if the duration is strictly positive; the string "every 0s"
parses successfully to a zero duration, an out-of-range amount falls back
to a zero duration, and with a zero duration the per-task loop never
finishes, so the tick never completes and later tasks are never
processed. -/
theorem c10_zero_duration_divergence
    (cronFromStr : String → Option (Int → Option Int))
    (parseRfc : String → Option Int) (toRfc : Int → String)
    (run : RunOutcome) (d last now : Int) (hlast : last ≤ now) :
    ((∃ (fuel : Nat) (r : Int), catchUp d now fuel (last + d) = some r) ↔
        0 < d) ∧
      parseTaskSchedule cronFromStr "every 0s" = some (.every 0) ∧
      parseTaskSchedule cronFromStr "every 9300000000000000s" =
        some (.every 0) ∧
      ∀ (fuel : Nat) (t : Task) (rest : List Task) (s : String),
        t.schedule = "every 0s" → t.last_run = some s →
        parseRfc s = some last →
        runTick cronFromStr parseRfc toRfc now fuel run (t :: rest) =
          none := by
  refine ⟨⟨?_, ?_⟩, rfl, rfl, ?_⟩
  · rintro ⟨fuel, r, hr⟩
    by_contra hd
    rw [catchUp_stuck d now (by omega) fuel (last + d) (by omega)] at hr
    exact Option.noConfusion hr
  · intro hd
    exact catchUp_terminates d now (last + d) hd
  · intro fuel t rest s hsched hlastrun hparse
    have hstuck : catchUp 0 now fuel (last + 0) = none :=
      catchUp_stuck 0 now le_rfl fuel (last + 0) (by omega)
    have hp : processTask cronFromStr parseRfc toRfc now fuel run t =
        none := by
      unfold processTask
      rw [hsched,
        show parseTaskSchedule cronFromStr "every 0s" = some (.every 0)
          from rfl]
      dsimp only
      unfold computeNextOccurrence
      rw [hlastrun]
      simp only [Option.some_bind]
      rw [hparse]
      dsimp only
      rw [hstuck]
      rfl
    simp [runTick, hp]

/-- Witness for C10 at last_run 0, now 0, duration 1, and a concrete
diverging task list. -/
theorem c10_witness :
    (0 : Int) ≤ 0 ∧
      ((∃ (fuel : Nat) (r : Int), catchUp 1 0 fuel ((0 : Int) + 1) = some r)
          ↔ 0 < (1 : Int)) ∧
      parseTaskSchedule (fun _ => none) "every 0s" = some (.every 0) ∧
      parseTaskSchedule (fun _ => none) "every 9300000000000000s" =
        some (.every 0) ∧
      runTick (fun _ => none) (fun _ => some 0) (fun _ => "T") 0 3
          (.joinErr "")
          (⟨"tz", "g", "p", "every 0s", some "L", none, "active"⟩ ::
            [⟨"t2", "g", "p", "every 5s", none, none, "active"⟩]) =
        none := by
  have h := c10_zero_duration_divergence (fun _ => none) (fun _ => some 0)
    (fun _ => "T") (.joinErr "") 1 0 0 (by decide)
  have h0 := c10_zero_duration_divergence (fun _ => none) (fun _ => some 0)
    (fun _ => "T") (.joinErr "") 1 0 0 (by decide)
  exact ⟨by decide, h.1, h.2.1, h.2.2.1,
    h0.2.2.2 3 ⟨"tz", "g", "p", "every 0s", some "L", none, "active"⟩
      [⟨"t2", "g", "p", "every 5s", none, none, "active"⟩] "L" rfl rfl rfl⟩

end Rclaw
